import Mathlib

/-!
Shallow embedding of `@opensourceframework/next-circuit-breaker`
(`src/src/index.ts`), a circuit breaker around an async operation.

Modelling choices:
* JS numbers used by the library (counters, thresholds, timestamps) are
  modelled as `Int`; `Date.now()` becomes an explicit `now : Int` argument
  threaded through the operations that read the clock.
* The wrapped async operation is represented, per call, by its settled
  outcome `Except ε ρ` (resolved value or rejection value); the breaker
  never inspects it beyond success/failure, so this is faithful.
* The `onOpen` / `onClose` / `onHalfOpen` callbacks are modelled as an
  event list returned by each operation (the code fires them synchronously
  at the same points, consuming no result).
* `timeoutId` (the handle of the `setTimeout` scheduled in `open()`)
  is modelled as `Option Int` holding the absolute time at which the
  pending cooldown callback would fire; `clearTimeout` / clearing the
  field becomes `none`.
* A thrown JS error becomes `Except.error`; `fire` distinguishes the
  breaker-open rejection from the wrapped operation's own error with the
  `FireError` sum, mirroring the two `throw` sites in the source.
-/

/-- `CircuitState` from the source: `'CLOSED' | 'OPEN' | 'HALF_OPEN'`. -/
inductive CircuitState : Type
  | CLOSED
  | OPEN
  | HALF_OPEN
deriving DecidableEq, Repr

/-- The mutable fields and immutable configuration of the
`CircuitBreaker` class (lines 85-99 of `index.ts`). -/
structure CircuitBreaker : Type where
  state : CircuitState
  failureCount : Int
  successCount : Int
  nextAttemptTime : Int
  failureThreshold : Int
  successThreshold : Int
  timeout : Int
  timeoutId : Option Int
deriving DecidableEq, Repr

/-- Constructor options (`CircuitBreakerOptions`): each numeric option is
optional (`none` = omitted / `undefined`); callbacks are modelled by the
event lists the operations return, so they carry no data here. -/
structure CircuitBreakerOptions : Type where
  failureThreshold : Option Int := none
  successThreshold : Option Int := none
  timeout : Option Int := none
deriving DecidableEq, Repr

/-- One observer notification: which of `onOpen` / `onClose` /
`onHalfOpen` the breaker invoked. -/
inductive BEvent : Type
  | onOpen
  | onClose
  | onHalfOpen
deriving DecidableEq, Repr

/-- The field initializers of the class (lines 86-89): state `CLOSED`,
both counters `0`, `nextAttemptTime = 0`, no pending timer. -/
def CircuitBreaker.init (failureThreshold successThreshold timeout : Int) :
    CircuitBreaker :=
  { state := CircuitState.CLOSED
    failureCount := 0
    successCount := 0
    nextAttemptTime := 0
    failureThreshold := failureThreshold
    successThreshold := successThreshold
    timeout := timeout
    timeoutId := none }

/-- The validation test applied to each provided option (lines 112-120):
`options.x !== undefined && options.x <= 0`. -/
def badOptB : Option Int → Bool
  | none => false
  | some v => decide (v ≤ 0)

/-- The constructor (lines 107-128): validates the three numeric options
in source order, throwing a configuration error, then applies the
defaults `3`, `2`, `10000` via `??`. -/
def mkCircuitBreaker (options : CircuitBreakerOptions) :
    Except String CircuitBreaker :=
  if badOptB options.failureThreshold then
    Except.error "failureThreshold must be a positive number"
  else if badOptB options.successThreshold then
    Except.error "successThreshold must be a positive number"
  else if badOptB options.timeout then
    Except.error "timeout must be a positive number"
  else
    Except.ok (CircuitBreaker.init (options.failureThreshold.getD 3)
      (options.successThreshold.getD 2) (options.timeout.getD 10000))

/-- `reset()` (lines 213-218): zero both counters, go to `CLOSED`,
invoke `onClose`. It does not touch `nextAttemptTime` or `timeoutId`. -/
def CircuitBreaker.reset (b : CircuitBreaker) :
    CircuitBreaker × List BEvent :=
  ({ b with failureCount := 0, successCount := 0,
            state := CircuitState.CLOSED },
   [BEvent.onClose])

/-- `open()` (lines 238-248; `open` is a Lean keyword, hence `openB`):
state `OPEN`, `nextAttemptTime = Date.now() + timeout`, invoke `onOpen`,
clear any existing timer and schedule the cooldown callback to fire
`timeout` ms later (stored here as its absolute fire time). -/
def CircuitBreaker.openB (b : CircuitBreaker) (now : Int) :
    CircuitBreaker × List BEvent :=
  ({ b with state := CircuitState.OPEN,
            nextAttemptTime := now + b.timeout,
            timeoutId := some (now + b.timeout) },
   [BEvent.onOpen])

/-- `trip()` (lines 205-207): just calls `open()`. -/
def CircuitBreaker.trip (b : CircuitBreaker) (now : Int) :
    CircuitBreaker × List BEvent :=
  b.openB now

/-- `transitionToHalfOpen()` (lines 250-258): if `OPEN`, move to
`HALF_OPEN`, zero `successCount`, invoke `onHalfOpen`; in every case
clear the stored timer id afterwards. -/
def CircuitBreaker.transitionToHalfOpen (b : CircuitBreaker) :
    CircuitBreaker × List BEvent :=
  if b.state = CircuitState.OPEN then
    ({ b with state := CircuitState.HALF_OPEN, successCount := 0,
              timeoutId := none },
     [BEvent.onHalfOpen])
  else
    ({ b with timeoutId := none }, [])

/-- `destroy()` (lines 264-269): clear any pending timer. -/
def CircuitBreaker.destroy (b : CircuitBreaker) : CircuitBreaker :=
  { b with timeoutId := none }

/-- `success(response)` (lines 220-228): only in `HALF_OPEN` does it
increment `successCount` and, once the threshold is reached, call
`reset()`; the response is returned unchanged in every branch. -/
def CircuitBreaker.success (b : CircuitBreaker) (response : ρ) :
    (CircuitBreaker × List BEvent) × ρ :=
  if b.state = CircuitState.HALF_OPEN then
    let b1 : CircuitBreaker := { b with successCount := b.successCount + 1 }
    if b1.successCount ≥ b1.successThreshold then (b1.reset, response)
    else ((b1, []), response)
  else ((b, []), response)

/-- `fail(error)` (lines 230-236): increment `failureCount`, call
`open()` when it reaches the threshold, re-throw the original error
value (returned unchanged here). -/
def CircuitBreaker.fail (b : CircuitBreaker) (now : Int) (error : ε) :
    (CircuitBreaker × List BEvent) × ε :=
  let b1 : CircuitBreaker := { b with failureCount := b.failureCount + 1 }
  if b1.failureCount ≥ b1.failureThreshold then (b1.openB now, error)
  else ((b1, []), error)

/-- The two kinds of rejection `fire` can produce: the breaker-open
error (with the `Retry after N seconds` figure it embeds in the
message), or the wrapped operation's own error, carried unmodified. -/
inductive FireError (ε : Type) : Type
  | breakerOpen (retryAfterSeconds : Int)
  | opError (e : ε)
deriving DecidableEq, Repr

/-- Everything one `fire` call produces: the updated breaker, the
observer notifications fired, whether the wrapped operation was invoked,
and the settled result. -/
structure FireOutcome (ε ρ : Type) : Type where
  breaker : CircuitBreaker
  events : List BEvent
  invoked : Bool
  result : Except (FireError ε) ρ
deriving Repr

/-- `Math.ceil(d / 1000)` as computed at line 143; there
`d = nextAttemptTime - Date.now() ≥ 0`, where floor and ceiling-by-bias
agree with JS semantics. -/
def ceilDiv1000 (d : Int) : Int := (d + 999) / 1000

/-- The `try/catch` body of `fire` (lines 148-153): invoke the wrapped
operation and route its outcome through `success` / `fail`. `ev` carries
the events of a preceding lazy `transitionToHalfOpen`. -/
def CircuitBreaker.fireBody (b : CircuitBreaker) (ev : List BEvent)
    (now : Int) (op : Except ε ρ) : FireOutcome ε ρ :=
  match op with
  | Except.ok r =>
      let s := b.success r
      { breaker := s.1.1, events := ev ++ s.1.2, invoked := true,
        result := Except.ok s.2 }
  | Except.error e =>
      let f := b.fail now e
      { breaker := f.1.1, events := ev ++ f.1.2, invoked := true,
        result := Except.error (FireError.opError f.2) }

/-- `fire(...args)` (lines 138-154): when `OPEN`, either lazily move to
`HALF_OPEN` (strictly after `nextAttemptTime`) and proceed, or reject
with the breaker-open error without invoking the operation; otherwise
invoke the operation. The two `Date.now()` reads in the source happen in
the same tick and are modelled by the single `now`. -/
def CircuitBreaker.fire (b : CircuitBreaker) (now : Int)
    (op : Except ε ρ) : FireOutcome ε ρ :=
  if b.state = CircuitState.OPEN then
    if now > b.nextAttemptTime then
      let t := b.transitionToHalfOpen
      t.1.fireBody t.2 now op
    else
      { breaker := b, events := [], invoked := false,
        result := Except.error (FireError.breakerOpen
          (ceilDiv1000 (b.nextAttemptTime - now))) }
  else
    b.fireBody [] now op

/-- One external stimulus applied to a breaker: an `execute` call (with
the clock reading and the operation's outcome), the scheduled cooldown
callback firing, or one of the manual / lifecycle operations. -/
inductive Act (ε ρ : Type) : Type
  | fireA (now : Int) (op : Except ε ρ)
  | timer
  | tripA (now : Int)
  | resetA
  | destroyA

/-- Apply one stimulus, keeping only the breaker state. -/
def CircuitBreaker.step (b : CircuitBreaker) : Act ε ρ → CircuitBreaker
  | Act.fireA now op => (b.fire now op).breaker
  | Act.timer => b.transitionToHalfOpen.1
  | Act.tripA now => (b.trip now).1
  | Act.resetA => b.reset.1
  | Act.destroyA => b.destroy

/-- Apply a sequence of stimuli. -/
def CircuitBreaker.run (b : CircuitBreaker) (acts : List (Act ε ρ)) :
    CircuitBreaker :=
  acts.foldl CircuitBreaker.step b

/-- A run consisting only of failing `execute` calls, at the given
clock readings. -/
def CircuitBreaker.failRun (b : CircuitBreaker) (ts : List Int) (e : ε) :
    CircuitBreaker :=
  b.run (ts.map fun t => Act.fireA (ρ := Unit) t (Except.error e))

/-- A run consisting only of successful `execute` calls, at the given
clock readings. -/
def CircuitBreaker.succRun (b : CircuitBreaker) (ts : List Int) (r : ρ) :
    CircuitBreaker :=
  b.run (ts.map fun t => Act.fireA (ε := Unit) t (Except.ok r))

/-- `withCircuitBreaker(handler, options)` (lines 299-305) returns a
closure over one fresh breaker that forwards every invocation to
`circuit.fire`. Its observable behaviour over a sequence of invocations
(each represented by its clock reading and the handler's outcome) is the
list of per-call results together with the final breaker state; a bad
option surfaces as the constructor's configuration error. -/
def withCircuitBreaker (options : CircuitBreakerOptions)
    (calls : List (Int × Except ε ρ)) :
    Except String (List (Except (FireError ε) ρ) × CircuitBreaker) :=
  (mkCircuitBreaker options).map fun b0 =>
    calls.foldl
      (fun acc c =>
        let o := acc.2.fire c.1 c.2
        (acc.1 ++ [o.result], o.breaker))
      ([], b0)

/-- `withApiCircuitBreaker(handler, options)` (lines 332-337): delegates
directly to `withCircuitBreaker` with the same handler and options. -/
def withApiCircuitBreaker (options : CircuitBreakerOptions)
    (calls : List (Int × Except ε ρ)) :
    Except String (List (Except (FireError ε) ρ) × CircuitBreaker) :=
  withCircuitBreaker options calls

/-! ### Basic evaluation lemmas about the operations -/

/-- `success` returns the response unchanged in every branch. -/
theorem CircuitBreaker.success_snd (b : CircuitBreaker) (r : ρ) :
    (b.success r).2 = r := by
  unfold CircuitBreaker.success
  dsimp only
  split
  · split <;> rfl
  · rfl

/-- `fail` re-throws exactly the original error value. -/
theorem CircuitBreaker.fail_snd (b : CircuitBreaker) (now : Int) (e : ε) :
    (b.fail now e).2 = e := by
  unfold CircuitBreaker.fail
  dsimp only
  split <;> rfl

/-- A `fire` in `CLOSED` state with a successful operation leaves the
breaker completely unchanged and returns the result as-is. -/
theorem CircuitBreaker.fire_closed_ok (b : CircuitBreaker) (now : Int)
    (r : ρ) (hs : b.state = CircuitState.CLOSED) :
    b.fire (ε := ε) now (Except.ok r) =
      { breaker := b, events := [], invoked := true,
        result := Except.ok r } := by
  simp [CircuitBreaker.fire, CircuitBreaker.fireBody, CircuitBreaker.success,
    hs]

/-- A failing call in `CLOSED` below the threshold just increments
`failureCount`. -/
theorem CircuitBreaker.fire_closed_fail_small (b : CircuitBreaker)
    (now : Int) (e : ε) (hs : b.state = CircuitState.CLOSED)
    (hlt : b.failureCount + 1 < b.failureThreshold) :
    b.fire (ρ := ρ) now (Except.error e) =
      { breaker := { b with failureCount := b.failureCount + 1 },
        events := [], invoked := true,
        result := Except.error (FireError.opError e) } := by
  have hns : ¬ b.state = CircuitState.OPEN := by rw [hs]; intro h; cases h
  unfold CircuitBreaker.fire CircuitBreaker.fireBody CircuitBreaker.fail
  rw [if_neg hns]
  dsimp only
  rw [if_neg (by omega : ¬ b.failureCount + 1 ≥ b.failureThreshold)]
  rfl

/-- A failing call in `CLOSED` that reaches the threshold trips the
breaker: state `OPEN`, deadline `now + timeout`, timer re-armed,
`onOpen` fired, error re-thrown. -/
theorem CircuitBreaker.fire_closed_fail_trip (b : CircuitBreaker)
    (now : Int) (e : ε) (hs : b.state = CircuitState.CLOSED)
    (hge : b.failureThreshold ≤ b.failureCount + 1) :
    b.fire (ρ := ρ) now (Except.error e) =
      { breaker := { b with
                       failureCount := b.failureCount + 1,
                       state := CircuitState.OPEN,
                       nextAttemptTime := now + b.timeout,
                       timeoutId := some (now + b.timeout) },
        events := [BEvent.onOpen], invoked := true,
        result := Except.error (FireError.opError e) } := by
  have hns : ¬ b.state = CircuitState.OPEN := by rw [hs]; intro h; cases h
  unfold CircuitBreaker.fire CircuitBreaker.fireBody CircuitBreaker.fail
    CircuitBreaker.openB
  rw [if_neg hns]
  dsimp only
  rw [if_pos (by omega : b.failureCount + 1 ≥ b.failureThreshold)]
  rfl

/-- A successful call in `HALF_OPEN` below the success threshold just
increments `successCount`. -/
theorem CircuitBreaker.fire_halfopen_ok_small (b : CircuitBreaker)
    (now : Int) (r : ρ) (hs : b.state = CircuitState.HALF_OPEN)
    (hlt : b.successCount + 1 < b.successThreshold) :
    b.fire (ε := ε) now (Except.ok r) =
      { breaker := { b with successCount := b.successCount + 1 },
        events := [], invoked := true, result := Except.ok r } := by
  have hns : ¬ b.state = CircuitState.OPEN := by rw [hs]; intro h; cases h
  unfold CircuitBreaker.fire CircuitBreaker.fireBody CircuitBreaker.success
  rw [if_neg hns]
  dsimp only
  rw [if_pos hs,
    if_neg (by omega : ¬ b.successCount + 1 ≥ b.successThreshold)]
  rfl

/-- A successful call in `HALF_OPEN` that reaches the success threshold
resets the breaker: state `CLOSED`, both counters `0`, `onClose`
fired. -/
theorem CircuitBreaker.fire_halfopen_ok_close (b : CircuitBreaker)
    (now : Int) (r : ρ) (hs : b.state = CircuitState.HALF_OPEN)
    (hge : b.successThreshold ≤ b.successCount + 1) :
    b.fire (ε := ε) now (Except.ok r) =
      { breaker := { b with
                       failureCount := 0, successCount := 0,
                       state := CircuitState.CLOSED },
        events := [BEvent.onClose], invoked := true,
        result := Except.ok r } := by
  have hns : ¬ b.state = CircuitState.OPEN := by rw [hs]; intro h; cases h
  unfold CircuitBreaker.fire CircuitBreaker.fireBody CircuitBreaker.success
    CircuitBreaker.reset
  rw [if_neg hns]
  dsimp only
  rw [if_pos hs, if_pos (by omega : b.successCount + 1 ≥ b.successThreshold)]
  rfl

/-- A call in `OPEN` at or before the deadline is rejected untouched:
no invocation, no event, breaker unchanged, breaker-open error. -/
theorem CircuitBreaker.fire_open_reject (b : CircuitBreaker) (now : Int)
    (op : Except ε ρ) (hs : b.state = CircuitState.OPEN)
    (hle : now ≤ b.nextAttemptTime) :
    b.fire now op =
      { breaker := b, events := [], invoked := false,
        result := Except.error (FireError.breakerOpen
          (ceilDiv1000 (b.nextAttemptTime - now))) } := by
  unfold CircuitBreaker.fire
  rw [if_pos hs, if_neg (by omega : ¬ now > b.nextAttemptTime)]

/-- A call in `OPEN` strictly after the deadline first performs the lazy
transition to `HALF_OPEN` and then runs the call body on the transited
breaker. -/
theorem CircuitBreaker.fire_open_lazy (b : CircuitBreaker) (now : Int)
    (op : Except ε ρ) (hs : b.state = CircuitState.OPEN)
    (hgt : b.nextAttemptTime < now) :
    b.fire now op =
      CircuitBreaker.fireBody
        { b with state := CircuitState.HALF_OPEN, successCount := 0,
                 timeoutId := none }
        [BEvent.onHalfOpen] now op := by
  unfold CircuitBreaker.fire CircuitBreaker.transitionToHalfOpen
  rw [if_pos hs, if_pos (by omega : now > b.nextAttemptTime), if_pos hs]

/-! ### Sequence lemmas -/

/-- Any sequence of successful calls while `CLOSED` leaves the breaker
bit-for-bit unchanged (in particular no counter moves). -/
theorem CircuitBreaker.closed_ok_run (b : CircuitBreaker)
    (calls : List (Int × ρ)) (hs : b.state = CircuitState.CLOSED) :
    b.run (calls.map fun c => Act.fireA (ε := ε) c.1 (Except.ok c.2)) =
      b := by
  induction calls with
  | nil => rfl
  | cons c cs ih =>
      simp only [List.map_cons, CircuitBreaker.run, List.foldl_cons]
      have h1 : CircuitBreaker.step b (Act.fireA (ε := ε) c.1
          (Except.ok c.2)) = b := by
        simp only [CircuitBreaker.step, CircuitBreaker.fire_closed_ok b c.1
          c.2 hs]
      rw [h1]
      exact ih

/-- Consecutive failing calls while `CLOSED`, as long as the threshold
is not reached, only accumulate `failureCount`. -/
theorem CircuitBreaker.failRun_closed (e : ε) (ts : List Int) :
    ∀ (b : CircuitBreaker), b.state = CircuitState.CLOSED →
    b.failureCount + ts.length < b.failureThreshold →
    b.failRun ts e = { b with failureCount := b.failureCount + ts.length }
    := by
  induction ts with
  | nil =>
      intro b hs hlt
      simp only [CircuitBreaker.failRun, List.map_nil, CircuitBreaker.run,
        List.foldl_nil, List.length_nil, Nat.cast_zero, add_zero]
  | cons t ts ih =>
      intro b hs hlt
      simp only [List.length_cons] at hlt
      have hsmall : b.failureCount + 1 < b.failureThreshold := by omega
      have hstep : b.failRun (t :: ts) e =
          CircuitBreaker.failRun
            { b with failureCount := b.failureCount + 1 } ts e := by
        simp only [CircuitBreaker.failRun, List.map_cons,
          CircuitBreaker.run, List.foldl_cons, CircuitBreaker.step,
          CircuitBreaker.fire_closed_fail_small b t e hs hsmall]
      rw [hstep, ih { b with failureCount := b.failureCount + 1 } hs
        (show b.failureCount + 1 + (ts.length : Int) < b.failureThreshold
          by omega)]
      show ({ b with
              failureCount := b.failureCount + 1 + (ts.length : Int) }
          : CircuitBreaker) =
        { b with failureCount := b.failureCount + ((t :: ts).length : Int) }
      rw [show b.failureCount + 1 + (ts.length : Int) =
        b.failureCount + ((t :: ts).length : Int) by
          simp only [List.length_cons]; push_cast; ring]

/-- Consecutive successful calls while `HALF_OPEN`, as long as the
success threshold is not reached, only accumulate `successCount`. -/
theorem CircuitBreaker.succRun_halfopen (r : ρ) (ts : List Int) :
    ∀ (b : CircuitBreaker), b.state = CircuitState.HALF_OPEN →
    b.successCount + ts.length < b.successThreshold →
    b.succRun ts r = { b with successCount := b.successCount + ts.length }
    := by
  induction ts with
  | nil =>
      intro b hs hlt
      simp only [CircuitBreaker.succRun, List.map_nil, CircuitBreaker.run,
        List.foldl_nil, List.length_nil, Nat.cast_zero, add_zero]
  | cons t ts ih =>
      intro b hs hlt
      simp only [List.length_cons] at hlt
      have hsmall : b.successCount + 1 < b.successThreshold := by omega
      have hstep : b.succRun (t :: ts) r =
          CircuitBreaker.succRun
            { b with successCount := b.successCount + 1 } ts r := by
        simp only [CircuitBreaker.succRun, List.map_cons,
          CircuitBreaker.run, List.foldl_cons, CircuitBreaker.step,
          CircuitBreaker.fire_halfopen_ok_small b t r hs hsmall]
      rw [hstep, ih { b with successCount := b.successCount + 1 } hs
        (show b.successCount + 1 + (ts.length : Int) < b.successThreshold
          by omega)]
      show ({ b with
              successCount := b.successCount + 1 + (ts.length : Int) }
          : CircuitBreaker) =
        { b with successCount := b.successCount + ((t :: ts).length : Int) }
      rw [show b.successCount + 1 + (ts.length : Int) =
        b.successCount + ((t :: ts).length : Int) by
          simp only [List.length_cons]; push_cast; ring]

/-! ### The cooldown-deadline invariant -/

/-- The stimulus carries a non-negative clock reading (vacuous for
stimuli that do not read the clock); `Date.now()` is non-negative. -/
def actNonneg : Act ε ρ → Prop
  | Act.fireA now _ => 0 ≤ now
  | Act.timer => True
  | Act.tripA now => 0 ≤ now
  | Act.resetA => True
  | Act.destroyA => True

instance actNonneg.decidable (a : Act ε ρ) : Decidable (actNonneg a) :=
  match a with
  | Act.fireA now _ => inferInstanceAs (Decidable (0 ≤ now))
  | Act.timer => inferInstanceAs (Decidable True)
  | Act.tripA _ => inferInstanceAs (Decidable (0 ≤ _))
  | Act.resetA => inferInstanceAs (Decidable True)
  | Act.destroyA => inferInstanceAs (Decidable True)

/-- While the breaker is `OPEN`, its cooldown deadline is set (a
strictly positive timestamp, i.e. not the initial `0`). -/
def deadlinePos (b : CircuitBreaker) : Prop :=
  b.state = CircuitState.OPEN → 0 < b.nextAttemptTime

/-- No stimulus changes the configured cooldown duration. -/
theorem CircuitBreaker.step_timeout (b : CircuitBreaker) (a : Act ε ρ) :
    (b.step a).timeout = b.timeout := by
  cases a with
  | fireA now op =>
      cases op <;>
        simp only [CircuitBreaker.step, CircuitBreaker.fire,
          CircuitBreaker.fireBody, CircuitBreaker.success,
          CircuitBreaker.fail, CircuitBreaker.openB,
          CircuitBreaker.reset, CircuitBreaker.transitionToHalfOpen] <;>
        split_ifs <;> rfl
  | timer =>
      simp only [CircuitBreaker.step, CircuitBreaker.transitionToHalfOpen]
      split_ifs <;> rfl
  | tripA now => rfl
  | resetA => rfl
  | destroyA => rfl

/-- One stimulus with a non-negative clock reading preserves the
deadline invariant, provided the cooldown duration is positive. -/
theorem CircuitBreaker.step_deadlinePos (b : CircuitBreaker) (a : Act ε ρ)
    (hto : 0 < b.timeout) (ha : actNonneg a) (hb : deadlinePos b) :
    deadlinePos (b.step a) := by
  cases a with
  | fireA now op =>
      have hnow : 0 ≤ now := ha
      cases op <;>
        simp only [CircuitBreaker.step, CircuitBreaker.fire,
          CircuitBreaker.fireBody, CircuitBreaker.success,
          CircuitBreaker.fail, CircuitBreaker.openB,
          CircuitBreaker.reset, CircuitBreaker.transitionToHalfOpen,
          deadlinePos] at hb ⊢ <;>
        split_ifs <;> intro hstate <;> dsimp only at hstate ⊢ <;>
        first
          | exact absurd hstate (by decide)
          | exact hb hstate
          | omega
  | timer =>
      simp only [CircuitBreaker.step, CircuitBreaker.transitionToHalfOpen,
        deadlinePos] at hb ⊢
      split_ifs <;> intro hstate <;> dsimp only at hstate ⊢ <;>
        first
          | exact absurd hstate (by decide)
          | exact hb hstate
  | tripA now =>
      have hnow : 0 ≤ now := ha
      simp only [CircuitBreaker.step, CircuitBreaker.trip,
        CircuitBreaker.openB, deadlinePos] at hb ⊢
      intro _
      omega
  | resetA =>
      simp only [CircuitBreaker.step, CircuitBreaker.reset,
        deadlinePos] at hb ⊢
      intro hstate
      exact absurd hstate (by decide)
  | destroyA =>
      simp only [CircuitBreaker.step, CircuitBreaker.destroy,
        deadlinePos] at hb ⊢
      exact hb

/-- The deadline invariant holds along every run whose stimuli carry
non-negative clock readings. -/
theorem CircuitBreaker.run_deadlinePos (acts : List (Act ε ρ)) :
    ∀ b : CircuitBreaker, 0 < b.timeout → (∀ a ∈ acts, actNonneg a) →
    deadlinePos b → deadlinePos (b.run acts) := by
  induction acts with
  | nil => intro b _ _ hb; exact hb
  | cons a acts ih =>
      intro b hto ha hb
      have h1 : CircuitBreaker.run b (a :: acts) =
          CircuitBreaker.run (b.step a) acts := rfl
      rw [h1]
      refine ih (b.step a) ?_ ?_ ?_
      · rw [CircuitBreaker.step_timeout]; exact hto
      · intro x hx; exact ha x (List.mem_cons_of_mem _ hx)
      · exact CircuitBreaker.step_deadlinePos b a hto
          (ha a (List.mem_cons_self _ _)) hb

/-- An admitted call body always invokes the wrapped operation. -/
theorem CircuitBreaker.fireBody_invoked (b : CircuitBreaker)
    (ev : List BEvent) (now : Int) (op : Except ε ρ) :
    (b.fireBody ev now op).invoked = true := by
  cases op <;> rfl

/-- An admitted call body returns the operation's own outcome: the
result unchanged on success, the original error value (tagged as an
operation error, not a breaker-open error) on failure. -/
theorem CircuitBreaker.fireBody_result (b : CircuitBreaker)
    (ev : List BEvent) (now : Int) (op : Except ε ρ) :
    (b.fireBody ev now op).result = (match op with
      | Except.ok r => Except.ok r
      | Except.error e => Except.error (FireError.opError e)) := by
  cases op with
  | ok r =>
      simp only [CircuitBreaker.fireBody]
      rw [CircuitBreaker.success_snd]
  | error e =>
      simp only [CircuitBreaker.fireBody]
      rw [CircuitBreaker.fail_snd]

/-! ### Claims -/

/-- C1, counterexample. With the default configuration, one failed call
in `CLOSED` (`NORMAL`) leaves `failureCount = 1` and the breaker still
`CLOSED`; a subsequent successful call does NOT reset `failureCount` to
0 — it stays 1, refuting "a successful call resets failureCount to 0". -/
theorem c1_success_does_not_reset_failureCount :
    (((CircuitBreaker.init 3 2 10000).fire (ρ := Unit) 0
        (Except.error ())).breaker.state = CircuitState.CLOSED) ∧
    (((CircuitBreaker.init 3 2 10000).fire (ρ := Unit) 0
        (Except.error ())).breaker.failureCount = 1) ∧
    ((((CircuitBreaker.init 3 2 10000).fire (ρ := Unit) 0
        (Except.error ())).breaker.fire (ε := Unit) 1
        (Except.ok ())).breaker.state = CircuitState.CLOSED) ∧
    ((((CircuitBreaker.init 3 2 10000).fire (ρ := Unit) 0
        (Except.error ())).breaker.fire (ε := Unit) 1
        (Except.ok ())).breaker.failureCount = 1) ∧
    ¬ ((((CircuitBreaker.init 3 2 10000).fire (ρ := Unit) 0
        (Except.error ())).breaker.fire (ε := Unit) 1
        (Except.ok ())).breaker.failureCount = 0) := by
  decide

/-- C1, amended: while `CLOSED` a successful call leaves the breaker —
in particular `failureCount` — completely unchanged; hence any sequence
of successful calls executed in `CLOSED` keeps `failureCount` at its
current value (0 on a fresh breaker), but a success does not reset a
non-zero failure streak, so failures need not be consecutive to
accumulate toward the threshold. -/
theorem c1_closed_success_run_unchanged (b : CircuitBreaker)
    (calls : List (Int × ρ)) (hs : b.state = CircuitState.CLOSED) :
    b.run (calls.map fun c => Act.fireA (ε := ε) c.1 (Except.ok c.2)) =
      b := by
  exact CircuitBreaker.closed_ok_run b calls hs

/-- C1, amended, witness at a fresh default breaker and two successful
calls. -/
theorem c1_closed_success_run_unchanged_witness :
    (CircuitBreaker.init 3 2 10000).state = CircuitState.CLOSED ∧
    (CircuitBreaker.init 3 2 10000).run
      (([((0:Int), ()), ((5:Int), ())]).map fun c =>
        Act.fireA (ε := Unit) c.1 (Except.ok c.2)) =
      CircuitBreaker.init 3 2 10000 :=
  ⟨rfl, c1_closed_success_run_unchanged (CircuitBreaker.init 3 2 10000)
    [((0:Int), ()), ((5:Int), ())] rfl⟩

/-- C2, code behaviour at the failing input. Reach `HALF_OPEN` via
`trip()` at time 0 followed by the cooldown callback: there
`failureCount = 0`. A single failed trial call then leaves the breaker
in `HALF_OPEN` (it does NOT transition to `OPEN`, because `fail()` only
re-opens once `failureCount` reaches `failureThreshold`), and in the
second scenario — the ordinary trip path — the re-opening failure does
NOT reset `successCount` to 0. -/
theorem c2_probe_failure_code_behaviour :
    (((CircuitBreaker.init 3 2 10000).run
        ([Act.tripA 0, Act.timer] : List (Act Unit Unit))).state =
      CircuitState.HALF_OPEN) ∧
    (((CircuitBreaker.init 3 2 10000).run
        ([Act.tripA 0, Act.timer] : List (Act Unit Unit))).failureCount
      = 0) ∧
    (((CircuitBreaker.init 3 2 10000).run
        ([Act.tripA 0, Act.timer,
          Act.fireA 20000 (Except.error ())] : List (Act Unit Unit))).state
      = CircuitState.HALF_OPEN) ∧
    ¬ (((CircuitBreaker.init 3 2 10000).run
        ([Act.tripA 0, Act.timer,
          Act.fireA 20000 (Except.error ())] : List (Act Unit Unit))).state
      = CircuitState.OPEN) ∧
    (((CircuitBreaker.init 2 2 1000).run
        ([Act.fireA 0 (Except.error ()), Act.fireA 1 (Except.error ()),
          Act.fireA 2000 (Except.ok ()),
          Act.fireA 2001 (Except.error ())] : List (Act Unit Unit))).state
      = CircuitState.OPEN) ∧
    ¬ (((CircuitBreaker.init 2 2 1000).run
        ([Act.fireA 0 (Except.error ()), Act.fireA 1 (Except.error ()),
          Act.fireA 2000 (Except.ok ()),
          Act.fireA 2001 (Except.error ())] : List (Act Unit Unit))).successCount
      = 0) := by
  decide

/-- C3: while `OPEN` at a time at or before `nextAttemptTime`, `fire`
does not invoke the wrapped operation, leaves the breaker (state and
all counters) bit-for-bit unchanged, and rejects with the breaker-open
error. -/
theorem c3_open_before_deadline_rejects (b : CircuitBreaker) (now : Int)
    (op : Except ε ρ) (hs : b.state = CircuitState.OPEN)
    (hle : now ≤ b.nextAttemptTime) :
    (b.fire now op).invoked = false ∧
    (b.fire now op).breaker = b ∧
    (b.fire now op).result = Except.error (FireError.breakerOpen
      (ceilDiv1000 (b.nextAttemptTime - now))) := by
  rw [CircuitBreaker.fire_open_reject b now op hs hle]
  exact ⟨rfl, rfl, rfl⟩

/-- C3, witness: a default breaker tripped at time 0, probed at time
5000 (deadline 10000). -/
theorem c3_open_before_deadline_rejects_witness :
    ((((CircuitBreaker.init 3 2 10000).trip 0).1.state =
        CircuitState.OPEN) ∧
      (5000:Int) ≤ ((CircuitBreaker.init 3 2 10000).trip 0).1.nextAttemptTime) ∧
    ((((CircuitBreaker.init 3 2 10000).trip 0).1.fire (ρ := Unit) 5000
        (Except.error ())).invoked = false ∧
      (((CircuitBreaker.init 3 2 10000).trip 0).1.fire (ρ := Unit) 5000
        (Except.error ())).breaker =
        ((CircuitBreaker.init 3 2 10000).trip 0).1 ∧
      (((CircuitBreaker.init 3 2 10000).trip 0).1.fire (ρ := Unit) 5000
        (Except.error ())).result = Except.error (FireError.breakerOpen
        (ceilDiv1000 (((CircuitBreaker.init 3 2 10000).trip 0).1.nextAttemptTime
          - 5000)))) :=
  ⟨⟨by decide, by decide⟩,
    c3_open_before_deadline_rejects ((CircuitBreaker.init 3 2 10000).trip 0).1
      5000 (Except.error ()) (by decide) (by decide)⟩

/-- C4: from a freshly constructed breaker, any number of consecutive
failed calls strictly below `failureThreshold` leaves the state
`CLOSED` with `failureCount` equal to the number of failures; the
`failureThreshold`-th consecutive failure (at clock reading `now`)
trips the breaker to `OPEN` with `nextAttemptTime = now + timeout`. -/
theorem c4_trips_after_threshold_failures (ft st tmo now : Int) (e : ε)
    (ts : List Int) (hlen : (ts.length : Int) < ft) :
    ((CircuitBreaker.init ft st tmo).failRun ts e).state =
      CircuitState.CLOSED ∧
    ((CircuitBreaker.init ft st tmo).failRun ts e).failureCount =
      ts.length ∧
    ((ts.length : Int) = ft - 1 →
      (((CircuitBreaker.init ft st tmo).failRun ts e).fire (ρ := Unit) now
          (Except.error e)).breaker.state = CircuitState.OPEN ∧
      (((CircuitBreaker.init ft st tmo).failRun ts e).fire (ρ := Unit) now
          (Except.error e)).breaker.nextAttemptTime = now + tmo ∧
      (((CircuitBreaker.init ft st tmo).failRun ts e).fire (ρ := Unit) now
          (Except.error e)).breaker.failureCount = ft) := by
  have hrun := CircuitBreaker.failRun_closed e ts
    (CircuitBreaker.init ft st tmo) rfl
    (show (0:Int) + (ts.length : Int) < ft by omega)
  rw [hrun]
  refine ⟨rfl, by dsimp only [CircuitBreaker.init]; ring, ?_⟩
  intro hft1
  have htrip := CircuitBreaker.fire_closed_fail_trip (ρ := Unit)
    { CircuitBreaker.init ft st tmo with
      failureCount := (CircuitBreaker.init ft st tmo).failureCount +
        (ts.length : Int) }
    now e rfl
    (show ft ≤ (0:Int) + (ts.length : Int) + 1 by omega)
  rw [htrip]
  exact ⟨rfl, rfl, show (0:Int) + (ts.length : Int) + 1 = ft by omega⟩

/-- C4, witness: threshold 2, one failure at time 0 (still `CLOSED`,
count 1), second failure at time 5 trips to `OPEN` with deadline
`5 + 1000`. -/
theorem c4_trips_after_threshold_failures_witness :
    (((([(0:Int)]).length : Int) < 2) ∧
      ((([(0:Int)]).length : Int) = 2 - 1)) ∧
    (((CircuitBreaker.init 2 2 1000).failRun [(0:Int)] ()).state =
        CircuitState.CLOSED ∧
      ((CircuitBreaker.init 2 2 1000).failRun [(0:Int)] ()).failureCount =
        (([(0:Int)]).length : Int) ∧
      ((((CircuitBreaker.init 2 2 1000).failRun [(0:Int)] ()).fire
          (ρ := Unit) 5 (Except.error ())).breaker.state =
        CircuitState.OPEN ∧
      (((CircuitBreaker.init 2 2 1000).failRun [(0:Int)] ()).fire
          (ρ := Unit) 5 (Except.error ())).breaker.nextAttemptTime =
        5 + 1000 ∧
      (((CircuitBreaker.init 2 2 1000).failRun [(0:Int)] ()).fire
          (ρ := Unit) 5 (Except.error ())).breaker.failureCount = 2)) :=
  ⟨⟨by decide, by decide⟩,
    (c4_trips_after_threshold_failures 2 2 1000 5 () [(0:Int)]
      (by decide)).1,
    (c4_trips_after_threshold_failures 2 2 1000 5 () [(0:Int)]
      (by decide)).2.1,
    (c4_trips_after_threshold_failures 2 2 1000 5 () [(0:Int)]
      (by decide)).2.2 (by decide)⟩

/-- C5: from a breaker in `HALF_OPEN` with `successCount = 0` (the
value every entry into `HALF_OPEN` establishes), any number of
consecutive successful calls strictly below `successThreshold` leaves
it `HALF_OPEN` with `successCount` equal to the number of successes;
the `successThreshold`-th consecutive success returns it to `CLOSED`
with both counters 0. -/
theorem c5_closes_after_success_threshold (b : CircuitBreaker) (r : ρ)
    (ts : List Int) (tn : Int) (hs : b.state = CircuitState.HALF_OPEN)
    (h0 : b.successCount = 0)
    (hlen : (ts.length : Int) < b.successThreshold) :
    (b.succRun ts r).state = CircuitState.HALF_OPEN ∧
    (b.succRun ts r).successCount = ts.length ∧
    ((ts.length : Int) = b.successThreshold - 1 →
      ((b.succRun ts r).fire (ε := Unit) tn (Except.ok r)).breaker.state =
        CircuitState.CLOSED ∧
      ((b.succRun ts r).fire (ε := Unit) tn
        (Except.ok r)).breaker.failureCount = 0 ∧
      ((b.succRun ts r).fire (ε := Unit) tn
        (Except.ok r)).breaker.successCount = 0) := by
  have hrun := CircuitBreaker.succRun_halfopen r ts b hs (by omega)
  rw [hrun]
  refine ⟨hs, by dsimp only; omega, ?_⟩
  intro hst1
  have hclose := CircuitBreaker.fire_halfopen_ok_close (ε := Unit)
    { b with successCount := b.successCount + (ts.length : Int) }
    tn r hs (show b.successThreshold ≤
      b.successCount + (ts.length : Int) + 1 by omega)
  rw [hclose]
  exact ⟨rfl, rfl, rfl⟩

/-- C5, witness: a `HALF_OPEN` breaker reached by `trip()` and the
cooldown callback, success threshold 2: one success keeps it
`HALF_OPEN`, the second closes it with both counters 0. -/
theorem c5_closes_after_success_threshold_witness :
    ((((CircuitBreaker.init 1 2 1000).trip 0).1.transitionToHalfOpen.1.state
        = CircuitState.HALF_OPEN) ∧
      (((CircuitBreaker.init 1 2 1000).trip
        0).1.transitionToHalfOpen.1.successCount = 0) ∧
      ((([(5:Int)]).length : Int) <
        ((CircuitBreaker.init 1 2 1000).trip
          0).1.transitionToHalfOpen.1.successThreshold)) ∧
    ((((CircuitBreaker.init 1 2 1000).trip
        0).1.transitionToHalfOpen.1.succRun [(5:Int)] ()).state =
        CircuitState.HALF_OPEN ∧
      ((((CircuitBreaker.init 1 2 1000).trip
        0).1.transitionToHalfOpen.1.succRun [(5:Int)] ()).successCount =
        (([(5:Int)]).length : Int)) ∧
      (((((CircuitBreaker.init 1 2 1000).trip
          0).1.transitionToHalfOpen.1.succRun [(5:Int)] ()).fire
          (ε := Unit) 6 (Except.ok ())).breaker.state =
        CircuitState.CLOSED ∧
      ((((CircuitBreaker.init 1 2 1000).trip
          0).1.transitionToHalfOpen.1.succRun [(5:Int)] ()).fire
          (ε := Unit) 6 (Except.ok ())).breaker.failureCount = 0 ∧
      ((((CircuitBreaker.init 1 2 1000).trip
          0).1.transitionToHalfOpen.1.succRun [(5:Int)] ()).fire
          (ε := Unit) 6 (Except.ok ())).breaker.successCount = 0)) :=
  ⟨⟨by decide, by decide, by decide⟩,
    (c5_closes_after_success_threshold
      ((CircuitBreaker.init 1 2 1000).trip 0).1.transitionToHalfOpen.1
      () [(5:Int)] 6 (by decide) (by decide) (by decide)).1,
    (c5_closes_after_success_threshold
      ((CircuitBreaker.init 1 2 1000).trip 0).1.transitionToHalfOpen.1
      () [(5:Int)] 6 (by decide) (by decide) (by decide)).2.1,
    (c5_closes_after_success_threshold
      ((CircuitBreaker.init 1 2 1000).trip 0).1.transitionToHalfOpen.1
      () [(5:Int)] 6 (by decide) (by decide) (by decide)).2.2
      (by decide)⟩

/-- C6, counterexample. `trip()` at time 0 then the cooldown callback:
the breaker is in `HALF_OPEN` (not `OPEN`), yet `nextAttemptTime` is
still `10000`, not cleared — refuting "`cooldownDeadline` is set if and
only if the state is `TRIPPED`" and "cleared on every transition out of
`TRIPPED`". -/
theorem c6_deadline_set_outside_open :
    (((CircuitBreaker.init 3 2 10000).run
        ([Act.tripA 0, Act.timer] : List (Act Unit Unit))).state =
      CircuitState.HALF_OPEN) ∧
    ¬ (((CircuitBreaker.init 3 2 10000).run
        ([Act.tripA 0, Act.timer] : List (Act Unit Unit))).state =
      CircuitState.OPEN) ∧
    (((CircuitBreaker.init 3 2 10000).run
        ([Act.tripA 0, Act.timer] : List (Act Unit Unit))).nextAttemptTime
      = 10000) ∧
    ¬ (((CircuitBreaker.init 3 2 10000).run
        ([Act.tripA 0, Act.timer] : List (Act Unit Unit))).nextAttemptTime
      = 0) := by
  decide

/-- C6, amended: `nextAttemptTime` is set to `now + timeout` on every
entry to `OPEN`, and in every state reachable from a fresh breaker (with
positive cooldown and non-negative clock readings) the state being
`OPEN` implies `nextAttemptTime` is set (strictly positive); but the
transitions out of `OPEN` (`transitionToHalfOpen`, `reset`) do NOT clear
it — they leave it unchanged — so it being set does not imply the state
is `OPEN`. -/
theorem c6_deadline_set_on_open_never_cleared (ft st tmo : Int)
    (hto : 0 < tmo) (acts : List (Act ε ρ))
    (hacts : ∀ a ∈ acts, actNonneg a) :
    (∀ (b : CircuitBreaker) (now : Int),
        (b.openB now).1.state = CircuitState.OPEN ∧
        (b.openB now).1.nextAttemptTime = now + b.timeout) ∧
    (∀ b : CircuitBreaker,
        b.transitionToHalfOpen.1.nextAttemptTime = b.nextAttemptTime) ∧
    (∀ b : CircuitBreaker, b.reset.1.nextAttemptTime = b.nextAttemptTime) ∧
    (((CircuitBreaker.init ft st tmo).run acts).state =
        CircuitState.OPEN →
      0 < ((CircuitBreaker.init ft st tmo).run acts).nextAttemptTime) := by
  refine ⟨fun b now => ⟨rfl, rfl⟩, fun b => ?_, fun b => rfl, ?_⟩
  · unfold CircuitBreaker.transitionToHalfOpen
    split_ifs <;> rfl
  · exact CircuitBreaker.run_deadlinePos acts (CircuitBreaker.init ft st tmo)
      hto hacts (fun h => nomatch h)

/-- C6, amended, witness: default configuration, tripped at time 0 and
probed by the cooldown callback. -/
theorem c6_deadline_set_on_open_never_cleared_witness :
    ((0:Int) < 10000 ∧
      (∀ a ∈ ([Act.tripA 0, Act.timer] : List (Act Unit Unit)),
        actNonneg a)) ∧
    ((∀ (b : CircuitBreaker) (now : Int),
        (b.openB now).1.state = CircuitState.OPEN ∧
        (b.openB now).1.nextAttemptTime = now + b.timeout) ∧
    (∀ b : CircuitBreaker,
        b.transitionToHalfOpen.1.nextAttemptTime = b.nextAttemptTime) ∧
    (∀ b : CircuitBreaker, b.reset.1.nextAttemptTime = b.nextAttemptTime) ∧
    (((CircuitBreaker.init 3 2 10000).run
        ([Act.tripA 0, Act.timer] : List (Act Unit Unit))).state =
        CircuitState.OPEN →
      0 < ((CircuitBreaker.init 3 2 10000).run
        ([Act.tripA 0, Act.timer] : List (Act Unit Unit))).nextAttemptTime)) :=
  ⟨⟨by decide, by decide⟩,
    c6_deadline_set_on_open_never_cleared 3 2 10000 (by decide)
      ([Act.tripA 0, Act.timer] : List (Act Unit Unit)) (by decide)⟩

/-- C7, counterexample. `trip()` at time 0 schedules the cooldown
callback (`timeoutId` holds it, due at 10000); `reset()` then returns to
`CLOSED` but the pending callback is NOT cancelled: `timeoutId` is still
set afterwards — refuting "cancels any pending cooldown callback so that
no previously scheduled timer remains pending". -/
theorem c7_reset_leaves_timer_pending :
    ((((CircuitBreaker.init 3 2 10000).trip 0).1.timeoutId = some 10000) ∧
    (((CircuitBreaker.init 3 2 10000).trip 0).1.reset.1.state =
      CircuitState.CLOSED) ∧
    (((CircuitBreaker.init 3 2 10000).trip 0).1.reset.1.timeoutId =
      some 10000) ∧
    ¬ (((CircuitBreaker.init 3 2 10000).trip 0).1.reset.1.timeoutId =
      none)) := by
  decide

/-- C7, amended: `reset()` from any state moves to `CLOSED`, zeroes both
counters and notifies `onClose`, but leaves any pending cooldown
callback scheduled (`timeoutId` unchanged); the stale callback is
harmless: firing against any non-`OPEN` breaker only clears the stored
timer id and changes nothing else, notifying nobody. -/
theorem c7_reset_clears_counters_not_timer (b c : CircuitBreaker)
    (hc : ¬ c.state = CircuitState.OPEN) :
    b.reset.1.state = CircuitState.CLOSED ∧
    b.reset.1.failureCount = 0 ∧
    b.reset.1.successCount = 0 ∧
    b.reset.2 = [BEvent.onClose] ∧
    b.reset.1.timeoutId = b.timeoutId ∧
    c.transitionToHalfOpen.1 = { c with timeoutId := none } ∧
    c.transitionToHalfOpen.2 = ([] : List BEvent) := by
  refine ⟨rfl, rfl, rfl, rfl, rfl, ?_, ?_⟩ <;>
    · unfold CircuitBreaker.transitionToHalfOpen
      rw [if_neg hc]

/-- C7, amended, witness: the tripped breaker (pending timer) is reset;
the resulting `CLOSED` breaker is what the stale callback later fires
against. -/
theorem c7_reset_clears_counters_not_timer_witness :
    (¬ ((CircuitBreaker.init 3 2 10000).trip
        0).1.reset.1.state = CircuitState.OPEN) ∧
    ((((CircuitBreaker.init 3 2 10000).trip 0).1.reset.1.state =
        CircuitState.CLOSED) ∧
      (((CircuitBreaker.init 3 2 10000).trip 0).1.reset.1.failureCount = 0) ∧
      (((CircuitBreaker.init 3 2 10000).trip 0).1.reset.1.successCount = 0) ∧
      (((CircuitBreaker.init 3 2 10000).trip 0).1.reset.2 =
        [BEvent.onClose]) ∧
      (((CircuitBreaker.init 3 2 10000).trip 0).1.reset.1.timeoutId =
        ((CircuitBreaker.init 3 2 10000).trip 0).1.timeoutId) ∧
      (((CircuitBreaker.init 3 2 10000).trip
          0).1.reset.1.transitionToHalfOpen.1 =
        { ((CircuitBreaker.init 3 2 10000).trip 0).1.reset.1 with
          timeoutId := none }) ∧
      (((CircuitBreaker.init 3 2 10000).trip
          0).1.reset.1.transitionToHalfOpen.2 = ([] : List BEvent))) :=
  ⟨by decide,
    c7_reset_clears_counters_not_timer
      ((CircuitBreaker.init 3 2 10000).trip 0).1
      ((CircuitBreaker.init 3 2 10000).trip 0).1.reset.1 (by decide)⟩

/-- C8: every admitted call (the breaker is not `OPEN`, or it is `OPEN`
with the deadline strictly passed so the call goes through as a trial)
invokes the wrapped operation and returns its outcome as-is: the result
unchanged on success, and on failure exactly the operation's original
error value — tagged as an operation error, never as the breaker-open
error, and never altered. -/
theorem c8_admitted_call_passthrough (b : CircuitBreaker) (now : Int)
    (op : Except ε ρ)
    (h : ¬ b.state = CircuitState.OPEN ∨ b.nextAttemptTime < now) :
    (b.fire now op).invoked = true ∧
    (b.fire now op).result = (match op with
      | Except.ok r => Except.ok r
      | Except.error e => Except.error (FireError.opError e)) := by
  by_cases hs : b.state = CircuitState.OPEN
  · have hgt : b.nextAttemptTime < now := h.resolve_left (not_not_intro hs)
    rw [CircuitBreaker.fire_open_lazy b now op hs hgt]
    exact ⟨CircuitBreaker.fireBody_invoked _ _ _ _,
      CircuitBreaker.fireBody_result _ _ _ _⟩
  · have hfire : b.fire now op = b.fireBody [] now op := by
      unfold CircuitBreaker.fire
      rw [if_neg hs]
    rw [hfire]
    exact ⟨CircuitBreaker.fireBody_invoked _ _ _ _,
      CircuitBreaker.fireBody_result _ _ _ _⟩

/-- C8, witness: a fresh default breaker (`CLOSED`) with a failing
operation; the error value `3` is propagated exactly. -/
theorem c8_admitted_call_passthrough_witness :
    (¬ (CircuitBreaker.init 3 2 10000).state = CircuitState.OPEN ∨
      (CircuitBreaker.init 3 2 10000).nextAttemptTime < 0) ∧
    (((CircuitBreaker.init 3 2 10000).fire (ρ := Unit) 0
        (Except.error (3:Int))).invoked = true ∧
      ((CircuitBreaker.init 3 2 10000).fire (ρ := Unit) 0
        (Except.error (3:Int))).result =
        (match (Except.error (3:Int) : Except Int Unit) with
          | Except.ok r => Except.ok r
          | Except.error e => Except.error (FireError.opError e))) :=
  ⟨Or.inl (by decide),
    c8_admitted_call_passthrough (CircuitBreaker.init 3 2 10000) 0
      (Except.error (3:Int)) (Or.inl (by decide))⟩

/-- C9: construction fails with a configuration error when any provided
`failureThreshold`, `successThreshold` or `timeout` option is not
strictly positive, and succeeds otherwise, with the defaults 3, 2 and
10000 substituted for each omitted option and the initial state
(`CLOSED`, zero counters, no deadline, no timer). -/
theorem c9_constructor_validation_and_defaults
    (o : CircuitBreakerOptions) :
    (((∃ v, o.failureThreshold = some v ∧ v ≤ 0) ∨
      (∃ v, o.successThreshold = some v ∧ v ≤ 0) ∨
      (∃ v, o.timeout = some v ∧ v ≤ 0)) →
      ∃ msg, mkCircuitBreaker o = Except.error msg) ∧
    ((∀ v, o.failureThreshold = some v → 0 < v) →
      (∀ v, o.successThreshold = some v → 0 < v) →
      (∀ v, o.timeout = some v → 0 < v) →
      mkCircuitBreaker o = Except.ok (CircuitBreaker.init
        (o.failureThreshold.getD 3) (o.successThreshold.getD 2)
        (o.timeout.getD 10000))) := by
  constructor
  · intro h
    have hor : badOptB o.failureThreshold = true ∨
        badOptB o.successThreshold = true ∨ badOptB o.timeout = true := by
      rcases h with ⟨v, hv, hle⟩ | ⟨v, hv, hle⟩ | ⟨v, hv, hle⟩
      · exact Or.inl (by rw [hv]; simp [badOptB, hle])
      · exact Or.inr (Or.inl (by rw [hv]; simp [badOptB, hle]))
      · exact Or.inr (Or.inr (by rw [hv]; simp [badOptB, hle]))
    by_cases h1 : badOptB o.failureThreshold = true
    · exact ⟨_, by unfold mkCircuitBreaker; rw [if_pos h1]⟩
    · by_cases h2 : badOptB o.successThreshold = true
      · exact ⟨_, by unfold mkCircuitBreaker; rw [if_neg h1, if_pos h2]⟩
      · by_cases h3 : badOptB o.timeout = true
        · refine ⟨"timeout must be a positive number", ?_⟩
          unfold mkCircuitBreaker
          rw [if_neg h1, if_neg h2, if_pos h3]
        · exact absurd hor (by simp [h1, h2, h3])
  · intro hf hsuc hti
    have h1 : ¬ badOptB o.failureThreshold = true := by
      cases hx : o.failureThreshold with
      | none => simp [badOptB]
      | some v =>
          have := hf v hx
          simp only [badOptB, decide_eq_true_eq]
          omega
    have h2 : ¬ badOptB o.successThreshold = true := by
      cases hx : o.successThreshold with
      | none => simp [badOptB]
      | some v =>
          have := hsuc v hx
          simp only [badOptB, decide_eq_true_eq]
          omega
    have h3 : ¬ badOptB o.timeout = true := by
      cases hx : o.timeout with
      | none => simp [badOptB]
      | some v =>
          have := hti v hx
          simp only [badOptB, decide_eq_true_eq]
          omega
    unfold mkCircuitBreaker
    rw [if_neg h1, if_neg h2, if_neg h3]

/-- C9, witness: `failureThreshold: 0` is rejected; all options omitted
yields the defaults 3, 2, 10000. -/
theorem c9_constructor_validation_and_defaults_witness :
    (∃ msg, mkCircuitBreaker
        ({ failureThreshold := some 0 } : CircuitBreakerOptions) =
      Except.error msg) ∧
    mkCircuitBreaker ({} : CircuitBreakerOptions) =
      Except.ok (CircuitBreaker.init 3 2 10000) :=
  ⟨(c9_constructor_validation_and_defaults
      ({ failureThreshold := some 0 } : CircuitBreakerOptions)).1
      (Or.inl ⟨0, rfl, by decide⟩),
    (c9_constructor_validation_and_defaults
      ({} : CircuitBreakerOptions)).2
      (fun v h => nomatch h) (fun v h => nomatch h) (fun v h => nomatch h)⟩

/-- C10: `withApiCircuitBreaker` delegates directly to
`withCircuitBreaker`, so for every options value and every sequence of
invocations (each with its clock reading and the handler's outcome) the
two produce the same per-call results — same result on success, same
error on failure — and the same final breaker state. -/
theorem c10_withApi_equals_with (options : CircuitBreakerOptions)
    (calls : List (Int × Except ε ρ)) :
    withApiCircuitBreaker options calls =
      withCircuitBreaker options calls := rfl
